import Mathlib

/-!
Verification development for the PAKT socket engine (desertbit/pakt).

The Go sources are shallowly embedded: machine integers become `Nat` with
explicit `% 2 ^ w` at the points where the Go code converts (`uint16(...)`,
`uint32(...)`, `byte(...)`); byte strings become `List Nat`; fallible code
returns `Except`/`Option`; the non-deterministic parts of the runtime
(codec outcomes, connection write results, random bytes, select winners)
are passed in explicitly as environment values, so every definition is an
executable function of its inputs.
-/

namespace Pakt

/-- Protocol version byte (`pakt.go`, `ProtocolVersion`). -/
def ProtocolVersion : Nat := 0

/-- Default maximum message payload size (`pakt.go`, `DefaultMaxMessageSize`). -/
def DefaultMaxMessageSize : Nat := 100 * 1024

/-- Hard cap on the header buffer (`pakt.go`, `maxHeaderBufferSize`). -/
def maxHeaderBufferSize : Nat := 10 * 1024

/-- Frame type byte for close (`pakt.go`, `typeClose`). -/
def typeClose : Nat := 0

/-- Frame type byte for ping (`pakt.go`, `typePing`). -/
def typePing : Nat := 1

/-- Frame type byte for pong (`pakt.go`, `typePong`). -/
def typePong : Nat := 2

/-- Frame type byte for a call request (`pakt.go`, `typeCall`). -/
def typeCall : Nat := 3

/-- Frame type byte for a call return (`pakt.go`, `typeCallReturn`). -/
def typeCallReturn : Nat := 4

/-- Embeds `utils.go` `bytesToUint16`: big-endian decode of two bytes; returns
`errInvalidByteLen` when fewer than 2 bytes are supplied. -/
def bytesToUint16 (data : List Nat) : Except String Nat :=
  if data.length < 2 then .error "invalid byte length"
  else .ok (data[0]! * 2 ^ 8 + data[1]!)

/-- Embeds `utils.go` `uint16ToBytes`: big-endian encode of a `uint16` value
(`binary.BigEndian.PutUint16`; each emitted byte is reduced `% 256`). -/
def uint16ToBytes (v : Nat) : List Nat :=
  [v / 2 ^ 8 % 256, v % 256]

/-- Embeds `utils.go` `bytesToUint32`: big-endian decode of four bytes; returns
`errInvalidByteLen` when fewer than 4 bytes are supplied. -/
def bytesToUint32 (data : List Nat) : Except String Nat :=
  if data.length < 4 then .error "invalid byte length"
  else .ok (data[0]! * 2 ^ 24 + data[1]! * 2 ^ 16 + data[2]! * 2 ^ 8 + data[3]!)

/-- Embeds `utils.go` `uint32ToBytes`: big-endian encode of a `uint32` value. -/
def uint32ToBytes (v : Nat) : List Nat :=
  [v / 2 ^ 24 % 256, v / 2 ^ 16 % 256, v / 2 ^ 8 % 256, v % 256]

/-- The byte sequence `Socket.write` puts on the wire for one frame, given the
already codec-encoded header and payload bytes: the 2-byte head
`[ProtocolVersion, reqType]`, the big-endian `uint16(len(header))`, the
big-endian `uint32(len(payload))`, then header and payload
(`pakt.go`, `Socket.write`, the buffer layout written at lines 404-461). -/
def encodeFrame (reqType : Nat) (header payload : List Nat) : List Nat :=
  [ProtocolVersion, reqType] ++ uint16ToBytes (header.length % 2 ^ 16)
    ++ uint32ToBytes (payload.length % 2 ^ 32) ++ header ++ payload

/-- Outcome of one iteration of `Socket.readLoop` (`pakt.go`): either a frame
is handed to `handleReceivedMessage` in a fresh goroutine and the loop
continues on the remaining stream, or the loop returns — and its
`defer s.Close()` then closes the engine. -/
inductive ReadStep
  /-- A full frame was read: dispatch `(reqType, headerBuf, payloadBuf)` and
  continue reading from `rest`. -/
  | dispatch (reqType : Nat) (headerBuf payloadBuf rest : List Nat)
  /-- The read loop returns (read error, end of stream, or a protocol
  violation); the deferred `s.Close()` closes the engine. -/
  | exitClose
  deriving DecidableEq, Repr

/-- One iteration of `Socket.readLoop` over the (ordered, reliable) byte
stream, modelled as a finite list: the inner `for bytesRead < n` loops read
exactly `n` bytes when the stream still holds them and hit a read error
(end of data) otherwise. Mirrors `pakt.go` lines 501-597: read 8 head bytes,
check the version byte, decode the header and payload lengths, enforce the
bounds, then read the header and payload bytes. -/
def readLoopStep (maxMessageSize : Nat) (stream : List Nat) : ReadStep :=
  match stream with
  | b0 :: b1 :: b2 :: b3 :: b4 :: b5 :: b6 :: b7 :: rest =>
    if b0 ≠ ProtocolVersion then .exitClose
    else
      match bytesToUint16 [b2, b3] with
      | .error _ => .exitClose
      | .ok headerLen =>
        if headerLen > maxHeaderBufferSize then .exitClose
        else
          match bytesToUint32 [b4, b5, b6, b7] with
          | .error _ => .exitClose
          | .ok payloadLen =>
            if payloadLen > maxMessageSize then .exitClose
            else if rest.length < headerLen then .exitClose
            else
              let headerBuf := rest.take headerLen
              let rest2 := rest.drop headerLen
              if rest2.length < payloadLen then .exitClose
              else .dispatch b1 headerBuf (rest2.take payloadLen) (rest2.drop payloadLen)
  | _ => .exitClose

/-- The errors `Socket.write` can return (`pakt.go` lines 362-464), by source
branch. Error values are identified by their observable content: the
distinguished error values keep their own constructors, wrapped codec and
connection errors carry the underlying message text. -/
inductive WriteErr
  /-- Error `fmt.Errorf("encode: %v", err)` — payload codec failure. -/
  | encodeData (msg : String)
  /-- Error `ErrMaxMsgSizeExceeded` — encoded payload longer than `maxMessageSize`. -/
  | maxMsgSizeExceeded
  /-- Error `fmt.Errorf("encode header: %v", err)` — header codec failure. -/
  | encodeHeader (msg : String)
  /-- Error `fmt.Errorf("maximum header size exceeded")`. -/
  | headerTooLarge
  /-- The deferred check `bytesWritten != totalLen` fired: the error is
  replaced by `"write: not all message bytes have been written"` and the
  socket is closed. -/
  | shortWrite
  /-- An error from `conn.Write` returned with all counted bytes written
  (so the deferred short-write check does not fire). -/
  | conn (msg : String)
  deriving DecidableEq, Repr

/-- Observable outcome of one `Socket.write` invocation: the returned error
(`none` on success), the bytes that reached the connection, and whether the
deferred short-write check invoked `s.Close()`. -/
structure WriteOut where
  err : Option WriteErr
  sent : List Nat
  closed : Bool
  deriving DecidableEq, Repr

/-- One `conn.Write(buf)` call against the environment's scripted connection
behavior: the next `(n, err)` response is consumed; once the script is
exhausted the connection accepts every buffer in full without error. -/
def connWrite (conn : List (Nat × Option String)) (buf : List Nat) :
    Nat × Option String × List (Nat × Option String) :=
  match conn with
  | [] => (buf.length, none, [])
  | r :: rs => (r.1, r.2, rs)

/-- The straight-line `conn.Write` sequence of `Socket.write` (lines 430-461):
each buffer is written in turn, the returned counts are accumulated into
`bytesWritten` (also for the erroring call), and the first error stops the
sequence. Returns `(bytesWritten, bytes on the wire, first error)`. -/
def writeSeq (conn : List (Nat × Option String)) :
    List (List Nat) → Nat × List Nat × Option String
  | [] => (0, [], none)
  | buf :: bufs =>
    let (n, e, conn') := connWrite conn buf
    match e with
    | some msg => (n, buf.take n, some msg)
    | none =>
      let (n', sent', e') := writeSeq conn' bufs
      (n + n', buf.take n ++ sent', e')

/-- Embeds `Socket.write(reqType, headerI, dataI)` (`pakt.go` lines 362-464).

The codec is the environment: `encodeH`/`encodeD` give the codec's result on
the header and data values; `dataI = none` models a nil `dataI` (no payload
is encoded), likewise `headerI`. `conn` scripts the `conn.Write` results.

Source order: encode the payload, check `maxMessageSize`, encode the header,
check `maxHeaderBufferSize`, then — under the write mutex — write head,
header length, payload length, header (if non-empty) and payload (if
non-empty). The deferred check replaces the error by a short-write error and
closes the socket whenever the counted bytes differ from `totalLen`; it is
registered only after the bounds checks, so the early error returns write
nothing and do not close. -/
def socketWrite {α β : Type} (encodeH : α → Except String (List Nat))
    (encodeD : β → Except String (List Nat)) (maxMessageSize : Nat)
    (reqType : Nat) (headerI : Option α) (dataI : Option β)
    (conn : List (Nat × Option String)) : WriteOut :=
  match dataI.map encodeD with
  | some (.error e) => ⟨some (.encodeData e), [], false⟩
  | other =>
    let payload : List Nat := match other with
      | some (.ok bs) => bs
      | _ => []
    if payload.length > maxMessageSize then ⟨some .maxMsgSizeExceeded, [], false⟩
    else
      let payloadLen := uint32ToBytes (payload.length % 2 ^ 32)
      match headerI.map encodeH with
      | some (.error e) => ⟨some (.encodeHeader e), [], false⟩
      | otherH =>
        let header : List Nat := match otherH with
          | some (.ok bs) => bs
          | _ => []
        if header.length > maxHeaderBufferSize then ⟨some .headerTooLarge, [], false⟩
        else
          let headerLen := uint16ToBytes (header.length % 2 ^ 16)
          let head : List Nat := [ProtocolVersion, reqType]
          let totalLen :=
            head.length + headerLen.length + payloadLen.length
              + header.length + payload.length
          let bufs := [head, headerLen, payloadLen]
            ++ (if header.length > 0 then [header] else [])
            ++ (if payload.length > 0 then [payload] else [])
          let (bytesWritten, sent, e) := writeSeq conn bufs
          if bytesWritten ≠ totalLen then ⟨some .shortWrite, sent, true⟩
          else
            match e with
            | some msg => ⟨some (.conn msg), sent, false⟩
            | none => ⟨none, sent, false⟩

/-- The correlation-key length (`chain.go`, `chainIDLength`). -/
def chainIDLength : Nat := 10

/-- The 62-character alphabet of `utils.go` `randomString`. -/
def alphanum : List Char :=
  "0123456789ABCDEFGHIJKLMNOPQRSTUVWXYZabcdefghijklmnopqrstuvwxyz".data

/-- Embeds `utils.go` `randomString(n)`: fill `n` bytes from `crypto/rand` and map
each byte `b` to `alphanum[b % 62]`. The OS entropy source is modelled as an
inexhaustible byte stream `randBytes` (each value reduced `% 256` to a byte),
so the `rand.Read` error branch — reachable only if the entropy source itself
fails — does not arise. -/
def randomString (n : Nat) (randBytes : Nat → Nat) : String :=
  ⟨(List.range n).map fun i => alphanum.getD (randBytes i % 256 % alphanum.length) ' '⟩

/-- The collision-retry loop inside `chain.New` (`chain.go` lines 49-62):
generate an id, regenerate while it is already a key of `chanMap`. `gen i` is
the result of the `i`-th `randomString(chainIDLength)` call; `fuel` bounds the
number of attempts (the Go loop runs unboundedly; `none` models the run in
which every attempt collides and `New` never returns). -/
def chainNewLoop (m : List String) (gen : Nat → String) : Nat → Nat → Option String
  | _, 0 => none
  | i, fuel + 1 => if gen i ∈ m then chainNewLoop m gen (i + 1) fuel else some (gen i)

/-- Embeds `chain.New` (`chain.go`): mint a fresh key under the mutex and insert it
into `chanMap` (modelled by its key list). Returns the key and the updated
map. -/
def chainNew (m : List String) (gen : Nat → String) (fuel : Nat) :
    Option (String × List String) :=
  (chainNewLoop m gen 0 fuel).map fun id => (id, id :: m)

/-- Embeds `chain.Get` (`chain.go`): whether `chanMap[id]` holds a channel
(`Get` returns nil exactly when the key is absent). -/
def chainGet (m : List String) (id : String) : Bool :=
  id ∈ m

/-- Embeds `chain.Delete` (`chain.go`): `delete(c.chanMap, id)` — remove the key if
present, a no-op otherwise. -/
def chainDelete (m : List String) (id : String) : List String :=
  m.filter (· ≠ id)

/-- The `Context` type (`context.go`): the raw, still-encoded payload bytes of
the incoming message. The back-reference to the owning socket is represented
by passing the socket's codec explicitly where the context uses it. -/
structure Context where
  Data : List Nat
  deriving DecidableEq, Repr

/-- The result of `Context.Decode` (`context.go` lines 58-71), by branch. -/
inductive DecodeErr
  /-- Error `ErrNoContextData` — empty payload. -/
  | noContextData
  /-- Error `fmt.Errorf("decode: %v", err)` — the codec failed on the payload. -/
  | decodeFailed (msg : String)
  deriving DecidableEq, Repr

/-- Embeds `Context.Decode(v)` (`context.go`): fail with `ErrNoContextData` on an
empty payload, otherwise delegate to the socket codec's `Decode`, wrapping a
codec failure. `codecDecode` gives the codec's outcome on the payload bytes
(`none` = success into `v`). -/
def contextDecode (codecDecode : List Nat → Option String) (c : Context) :
    Option DecodeErr :=
  if c.Data.length = 0 then some .noContextData
  else
    match codecDecode c.Data with
    | some e => some (.decodeFailed e)
    | none => none

/-- The call header `headerCall` (used by `Socket.Call` and
`Socket.handleCallRequest` in `pakt.go`; the struct's declaration file is not
in the sources, its two fields are fixed by the literals
`&headerCall{FuncID: id, ReturnKey: key}` and the uses of `header.FuncID`,
`header.ReturnKey`). -/
structure HeaderCall where
  FuncID : String
  ReturnKey : String
  deriving DecidableEq, Repr

/-- The call-return header `headerCallReturn` (used by
`Socket.handleCallRequest` and `Socket.handleCallReturnRequest` in `pakt.go`;
fields fixed by `&headerCallReturn{ReturnKey: ..., ReturnErr: ...}`). -/
structure HeaderCallReturn where
  ReturnKey : String
  ReturnErr : String
  deriving DecidableEq, Repr

/-- Embeds `retChainData` (`pakt.go`): the value delivered through a chain channel to
the waiting caller — the reply context and the optional peer error
(`errors.New(header.ReturnErr)`), identified by its message text. -/
structure RetChainData where
  ctx : Context
  err : Option String
  deriving DecidableEq, Repr

/-- Environment of the inbound dispatch path (`handleReceivedMessage` and the
two call handlers): the socket's codec on the four value kinds it
encodes/decodes, the registered function map, hook presence, the call
registry, connection behavior, and whether the waiting caller is ready to
receive on its chain channel. Handlers are total functions
`Context → (Option δ × Option String)`: the returned Go error is identified
by its `Error()` text. -/
structure MsgEnv (δ : Type) where
  maxMessageSize : Nat
  conn : List (Nat × Option String)
  encodeHeaderCallReturn : HeaderCallReturn → Except String (List Nat)
  encodeData : δ → Except String (List Nat)
  decodeHeaderCall : List Nat → Except String HeaderCall
  decodeHeaderCallReturn : List Nat → Except String HeaderCallReturn
  funcMap : List (String × (Context → Option δ × Option String))
  callHookSet : Bool
  errorHookSet : Bool
  registry : List String
  waiterReady : Bool

/-- Errors returned by `Socket.handleCallRequest` (`pakt.go` lines 640-696). -/
inductive HandleCallErr
  /-- Error `fmt.Errorf("decode call header: %v", err)`. -/
  | decodeHeader (msg : String)
  /-- Error `fmt.Errorf("call request: requested function does not exists: id=%v")`. -/
  | funcNotFound (id : String)
  /-- Error `fmt.Errorf("call request: send return request: %v", err)`. -/
  | sendReturn (w : WriteErr)
  deriving DecidableEq, Repr

/-- Observable outcome of `Socket.handleCallRequest`: the returned error, the
`s.write` invocations made (request type, header value, data value), the bytes
that reached the connection, whether the write path closed the socket, and
which hooks fired. -/
structure HandleCallOut (δ : Type) where
  err : Option HandleCallErr
  writes : List (Nat × Option HeaderCallReturn × Option δ)
  sent : List Nat
  closed : Bool
  callHookFired : Bool
  errorHookFired : Bool

/-- Embeds `Socket.handleCallRequest(headerBuf, payloadBuf)` (`pakt.go` lines
640-696): decode the call header, look up the function, build the context
from the payload bytes, fire the call hook, run the handler, and send one
call-return frame whose header echoes `ReturnKey` and carries the handler
error's text (empty string for a nil error); the error hook fires after a
successful send when the handler errored. -/
def handleCallRequest {δ : Type} (env : MsgEnv δ) (headerBuf payloadBuf : List Nat) :
    HandleCallOut δ :=
  match env.decodeHeaderCall headerBuf with
  | .error e => ⟨some (.decodeHeader e), [], [], false, false, false⟩
  | .ok header =>
    match env.funcMap.lookup header.FuncID with
    | none => ⟨some (.funcNotFound header.FuncID), [], [], false, false, false⟩
    | some f =>
      let context : Context := ⟨payloadBuf⟩
      let res := f context
      let retData := res.1
      let retErr := res.2
      let retErrString := match retErr with
        | some e => e
        | none => ""
      let retHeader : HeaderCallReturn := ⟨header.ReturnKey, retErrString⟩
      let w := socketWrite env.encodeHeaderCallReturn env.encodeData
        env.maxMessageSize typeCallReturn (some retHeader) retData env.conn
      match w.err with
      | some werr =>
        ⟨some (.sendReturn werr), [(typeCallReturn, some retHeader, retData)],
          w.sent, w.closed, env.callHookSet, false⟩
      | none =>
        ⟨none, [(typeCallReturn, some retHeader, retData)], w.sent, w.closed,
          env.callHookSet, retErr.isSome && env.errorHookSet⟩

/-- Errors returned by `Socket.handleCallReturnRequest` (`pakt.go` lines
698-746). The Go text of both `keyNotFound` and `deliveryTimeout` is
`"call return request failed (call timeout exceeded?)"`; they are kept apart
by branch. -/
inductive RetErr
  /-- Error `fmt.Errorf("decode call return header: %v", err)`. -/
  | decodeHeader (msg : String)
  /-- Branch where `funcChain.Get` returned nil: no waiter under this return key. -/
  | keyNotFound
  /-- Neither the non-blocking send nor the 1-second retry reached the
  waiter. -/
  | deliveryTimeout
  deriving DecidableEq, Repr

/-- Embeds `Socket.handleCallReturnRequest(headerBuf, payloadBuf)` (`pakt.go` lines
698-746): decode the return header, look the waiter up by `ReturnKey`, build
the peer error from a non-empty `ReturnErr`, and deliver
`retChainData{Context, Err}` to the waiter (`none` delivered if the waiter
never became ready). -/
def handleCallReturnRequest {δ : Type} (env : MsgEnv δ)
    (headerBuf payloadBuf : List Nat) : Option RetErr × Option RetChainData :=
  match env.decodeHeaderCallReturn headerBuf with
  | .error e => (some (.decodeHeader e), none)
  | .ok header =>
    if chainGet env.registry header.ReturnKey then
      let retErr : Option String :=
        if header.ReturnErr.length > 0 then some header.ReturnErr else none
      let rData : RetChainData := ⟨⟨payloadBuf⟩, retErr⟩
      if env.waiterReady then (none, some rData)
      else (some .deliveryTimeout, none)
    else (some .keyNotFound, none)

/-- Errors returned by `Socket.handleReceivedMessage` (`pakt.go` lines
600-638). -/
inductive MsgErr
  /-- Error `fmt.Errorf("failed to send pong response: %v", err)`. -/
  | pongFailed (w : WriteErr)
  /-- An error propagated from `handleCallRequest`. -/
  | call (e : HandleCallErr)
  /-- An error propagated from `handleCallReturnRequest`. -/
  | callReturn (e : RetErr)
  /-- Error `fmt.Errorf("invalid request type: %v", reqType)` — the default switch
  branch. -/
  | invalidType (t : Nat)
  deriving DecidableEq, Repr

/-- Observable outcome of `Socket.handleReceivedMessage`: the returned error
(only logged by the dispatching goroutine in `readLoop`), whether `s.Close`
was invoked, whether the keep-alive timers were reset, the `s.write`
invocations made, the bytes sent, and a delivery to a waiting caller. -/
structure MsgOut (δ : Type) where
  err : Option MsgErr
  closeCalled : Bool
  resetTimeout : Bool
  writes : List (Nat × Option HeaderCallReturn × Option δ)
  sent : List Nat
  delivered : Option RetChainData

/-- Embeds `Socket.handleReceivedMessage(reqType, headerBuf, payloadBuf)` (`pakt.go`
lines 600-638): reset the keep-alive timers, then switch on the request type —
close on `typeClose`, answer `typePing` with a pong frame, ignore `typePong`,
dispatch `typeCall`/`typeCallReturn` to their handlers, and return the
`invalid request type` error on any other type byte. -/
def handleReceivedMessage {δ : Type} (env : MsgEnv δ) (reqType : Nat)
    (headerBuf payloadBuf : List Nat) : MsgOut δ :=
  if reqType = typeClose then
    ⟨none, true, true, [], [], none⟩
  else if reqType = typePing then
    let w := socketWrite env.encodeHeaderCallReturn env.encodeData
      env.maxMessageSize typePong (none : Option HeaderCallReturn)
      (none : Option δ) env.conn
    ⟨w.err.map .pongFailed, w.closed, true, [(typePong, none, none)], w.sent, none⟩
  else if reqType = typePong then
    ⟨none, false, true, [], [], none⟩
  else if reqType = typeCall then
    let out := handleCallRequest env headerBuf payloadBuf
    ⟨out.err.map .call, out.closed, true, out.writes, out.sent, none⟩
  else if reqType = typeCallReturn then
    let out := handleCallReturnRequest env headerBuf payloadBuf
    ⟨out.1.map .callReturn, false, true, [], [], out.2⟩
  else
    ⟨some (.invalidType reqType), false, true, [], [], none⟩

/-- The second variadic argument of `Socket.Call` (`args[1]`): either a Go
`time.Duration` value or a value of any other dynamic type (which fails the
type assertion in `Call`). -/
inductive TimeoutArg
  | duration (d : Nat)
  | notDuration
  deriving DecidableEq, Repr

/-- The variadic arguments of `Socket.Call`: the optional data value
(`args[0]`) and the optional timeout argument (`args[1]`). -/
structure CallArgs (δ : Type) where
  data : Option δ
  timeoutArg : Option TimeoutArg
  deriving DecidableEq, Repr

/-- Which of the three events of `Call`'s `select` fires first: the close
broadcast, the per-call timer, or a delivery on the chain channel (sent by
`handleCallReturnRequest`, so it always carries a `retChainData`). -/
inductive CallOutcome
  | closeFired
  | timerFired
  | delivered (r : RetChainData)
  deriving DecidableEq, Repr

/-- The errors `Socket.Call` can return (`pakt.go` lines 296-351), by source
branch. -/
inductive CallErr
  /-- An error propagated unchanged from `s.write`. -/
  | write (w : WriteErr)
  /-- Error `fmt.Errorf("failed to assert optional variadic call timeout to a
  time.Duration value")`. -/
  | timeoutAssert
  /-- Error `ErrClosed` — the close broadcast fired. -/
  | closedErr
  /-- Error `ErrTimeout` — the per-call timer fired. -/
  | timeoutErr
  /-- The non-nil `rData.Err` delivered by the peer's call return, carrying
  exactly the peer's error text. -/
  | peer (msg : String)
  deriving DecidableEq, Repr

/-- Environment of one `Socket.Call` invocation: the `randomString` results
feeding `chain.New` (with its retry fuel), the socket codec on the call
header and the data value, the configured maximum message size, the scripted
connection, and the `select` winner. -/
structure CallEnv (δ : Type) where
  gen : Nat → String
  fuel : Nat
  encodeHeaderCall : HeaderCall → Except String (List Nat)
  encodeData : δ → Except String (List Nat)
  maxMessageSize : Nat
  conn : List (Nat × Option String)
  outcome : CallOutcome

/-- Embeds `Socket.Call(id, args...)` (`pakt.go` lines 296-351) against registry
state `reg`. Returns `none` when `chain.New` never terminates (every minted
key collides); otherwise `some (key, context, error, final registry)`, where
the deferred `funcChain.Delete(key)` has produced the final registry on every
return path: after a write error, after the failed timeout type assertion,
and after each of the three `select` outcomes (`ErrClosed`, `ErrTimeout`, or
the delivered `retChainData` returned as `(rData.Context, rData.Err)`). -/
def socketCall {δ : Type} (env : CallEnv δ) (reg : List String) (id : String)
    (args : CallArgs δ) :
    Option (String × Option Context × Option CallErr × List String) :=
  match chainNew reg env.gen env.fuel with
  | none => none
  | some (key, reg1) =>
    let header : HeaderCall := ⟨id, key⟩
    let w := socketWrite env.encodeHeaderCall env.encodeData env.maxMessageSize
      typeCall (some header) args.data env.conn
    match w.err with
    | some werr => some (key, none, some (.write werr), chainDelete reg1 key)
    | none =>
      match args.timeoutArg with
      | some .notDuration => some (key, none, some .timeoutAssert, chainDelete reg1 key)
      | _ =>
        match env.outcome with
        | .closeFired => some (key, none, some .closedErr, chainDelete reg1 key)
        | .timerFired => some (key, none, some .timeoutErr, chainDelete reg1 key)
        | .delivered r =>
          some (key, some r.ctx, r.err.map .peer, chainDelete reg1 key)

/-- Close-relevant state of one socket: whether `closeChan` is closed, how
many times the close broadcast (`close(s.closeChan)`) has been published, how
many times the connection has been released (`s.conn.Close()`), and, per
registered `OnClose` hook, how many times it has run. -/
structure CloseState where
  closed : Bool
  broadcastCount : Nat
  connCloseCount : Nat
  hookRuns : List Nat
  deriving DecidableEq, Repr

/-- Embeds `Socket.Close` (`pakt.go` lines 238-263): under `closeMutex`, return if
`IsClosed()` already observes a closed `closeChan`; otherwise close the
channel (one broadcast) and spawn the goroutine that best-effort-sends the
close frame and releases the connection once. Each goroutine registered by
`OnClose` is blocked on `closeChan` and runs its hook exactly once when the
channel closes. -/
def socketClose (st : CloseState) : CloseState :=
  if st.closed then st
  else
    { closed := true
      broadcastCount := st.broadcastCount + 1
      connCloseCount := st.connCloseCount + 1
      hookRuns := st.hookRuns.map (· + 1) }

/-- A socket before any close, with `numHooks` functions registered via
`OnClose` and none of them run. -/
def initCloseState (numHooks : Nat) : CloseState :=
  ⟨false, 0, 0, List.replicate numHooks 0⟩

/-- The set of `Call` results that the specification's sentence allows
(following the spec's words, for comparison with the source behavior):
success, `ErrClosed`, `ErrTimeout`, `ErrMaxMsgSizeExceeded`, or a
peer-reported error with the peer's text. -/
def callErrInSpecSet : Option CallErr → Bool
  | none => true
  | some .closedErr => true
  | some .timeoutErr => true
  | some (.write .maxMsgSizeExceeded) => true
  | some (.peer _) => true
  | _ => false

/-- A tiny concrete codec on call-return headers, total and consistent on the
values a concrete run uses: header `⟨"K", ""⟩` is the byte `[1]`,
anything else `[0]`. -/
def tinyHeaderCodecEnc (h : HeaderCallReturn) : Except String (List Nat) :=
  .ok (if h = ⟨"K", ""⟩ then [1] else [0])

/-- Decoder matching `tinyHeaderCodecEnc` on the used values. -/
def tinyHeaderCodecDec (bs : List Nat) : Except String HeaderCallReturn :=
  .ok (if bs = [1] then ⟨"K", ""⟩ else ⟨"", ""⟩)

/-- Concrete dispatch environment for a run in which the registered function
`"f"` returns a non-nil Go error whose `Error()` text is the empty string
(`errors.New("")`), together with the reply value `()` encoded as `[42]`. -/
def cexEmptyErrTextEnv : MsgEnv Unit where
  maxMessageSize := 4096
  conn := []
  encodeHeaderCallReturn := tinyHeaderCodecEnc
  encodeData := fun _ => .ok [42]
  decodeHeaderCall := fun _ => .ok ⟨"f", "K"⟩
  decodeHeaderCallReturn := tinyHeaderCodecDec
  funcMap := [("f", fun _ => (some (), some ""))]
  callHookSet := false
  errorHookSet := false
  registry := ["K"]
  waiterReady := true

/-- Concrete `Call` environment for the remote side of the same run: the
delivered `retChainData` carries the reply context `⟨[42]⟩` and — because the
received `ReturnErr` string was empty — a nil error. -/
def cexEmptyErrTextCallEnv : CallEnv Unit where
  gen := fun _ => "Q"
  fuel := 1
  encodeHeaderCall := fun _ => .ok []
  encodeData := fun _ => .ok []
  maxMessageSize := 4096
  conn := []
  outcome := .delivered ⟨⟨[42]⟩, none⟩

/-- Concrete dispatch environment for a run in which the registered function
`"f"` errors with text `"ERROR"` alongside the reply value `()` (encoded as
`[42]`); the call-return header `⟨"K", "ERROR"⟩` is the byte `[1]`. -/
def wPeerEnv : MsgEnv Unit where
  maxMessageSize := 4096
  conn := []
  encodeHeaderCallReturn := fun h => .ok (if h = ⟨"K", "ERROR"⟩ then [1] else [0])
  encodeData := fun _ => .ok [42]
  decodeHeaderCall := fun _ => .ok ⟨"f", "K"⟩
  decodeHeaderCallReturn := fun bs =>
    .ok (if bs = [1] then ⟨"K", "ERROR"⟩ else ⟨"", ""⟩)
  funcMap := [("f", fun _ => (some (), some "ERROR"))]
  callHookSet := false
  errorHookSet := false
  registry := ["K"]
  waiterReady := true

/-- Concrete `Call` environment for the remote side of the same run: the
delivered `retChainData` carries the reply context `⟨[42]⟩` and the peer
error text `"ERROR"`. -/
def wPeerCallEnv : CallEnv Unit where
  gen := fun _ => "Q"
  fuel := 1
  encodeHeaderCall := fun _ => .ok []
  encodeData := fun _ => .ok []
  maxMessageSize := 4096
  conn := []
  outcome := .delivered ⟨⟨[42]⟩, some "ERROR"⟩

end Pakt

namespace Pakt

theorem u16_roundtrip (v : Nat) (hv : v < 2 ^ 16) :
    bytesToUint16 (uint16ToBytes v) = .ok v := by
  simp only [uint16ToBytes, bytesToUint16, List.length_cons, List.length_nil]
  norm_num
  omega

theorem u32_roundtrip (v : Nat) (hv : v < 2 ^ 32) :
    bytesToUint32 (uint32ToBytes v) = .ok v := by
  simp only [uint32ToBytes, bytesToUint32, List.length_cons, List.length_nil]
  norm_num
  omega

/-- A frame assembled by the write path is parsed back by one read-loop
iteration into the same `(reqType, header, payload)` triple, consuming exactly
the frame's bytes and leaving `rest` on the stream — provided the header fits
the hard cap, the payload fits the configured maximum, and the payload length
fits the `uint32` length field. -/
theorem readLoopStep_encodeFrame (maxMessageSize reqType : Nat)
    (header payload rest : List Nat)
    (hh : header.length ≤ maxHeaderBufferSize)
    (hp : payload.length ≤ maxMessageSize)
    (hp32 : payload.length < 2 ^ 32) :
    readLoopStep maxMessageSize (encodeFrame reqType header payload ++ rest) =
      .dispatch reqType header payload rest := by
  have hh16 : header.length % 2 ^ 16 = header.length :=
    Nat.mod_eq_of_lt (by simp only [maxHeaderBufferSize] at hh; omega)
  have hp32' : payload.length % 2 ^ 32 = payload.length := Nat.mod_eq_of_lt hp32
  simp only [encodeFrame, uint16ToBytes, uint32ToBytes, hh16, hp32',
    List.cons_append, List.nil_append, List.append_assoc]
  simp only [readLoopStep, ProtocolVersion, ne_eq, not_true_eq_false, if_false,
    reduceIte]
  rw [show bytesToUint16 [header.length / 2 ^ 8 % 256, header.length % 256] =
      bytesToUint16 (uint16ToBytes header.length) from rfl,
    u16_roundtrip _ (by simp only [maxHeaderBufferSize] at hh; omega),
    show bytesToUint32 [payload.length / 2 ^ 24 % 256, payload.length / 2 ^ 16 % 256,
      payload.length / 2 ^ 8 % 256, payload.length % 256] =
      bytesToUint32 (uint32ToBytes payload.length) from rfl,
    u32_roundtrip _ hp32]
  simp only [if_neg (by omega : ¬ header.length > maxHeaderBufferSize),
    if_neg (by omega : ¬ payload.length > maxMessageSize)]
  have hlen1 : ¬ (header ++ (payload ++ rest)).length < header.length := by
    simp [List.length_append]
  rw [if_neg hlen1]
  have htake1 : (header ++ (payload ++ rest)).take header.length = header :=
    List.take_left header (payload ++ rest)
  have hdrop1 : (header ++ (payload ++ rest)).drop header.length = payload ++ rest :=
    List.drop_left header (payload ++ rest)
  simp only [htake1, hdrop1]
  have hlen2 : ¬ (payload ++ rest).length < payload.length := by
    simp [List.length_append]
  rw [if_neg hlen2]
  simp [List.take_left, List.drop_left]

/-- Claim C3. Every frame the read loop accepts and dispatches satisfies
`version == 0`, `headerLen ≤ 10·1024` and `payloadLen ≤ maxMessageSize`
(first conjunct: a dispatched frame's stream starts with the version byte 0,
and the dispatched header and payload respect both bounds); and a received
frame head violating any of these conditions is never dispatched and is
fatal — the read loop exits, and its deferred `s.Close()` closes the engine
(second conjunct). -/
theorem read_loop_bounds (maxMessageSize : Nat) :
    (∀ stream t h p rest, readLoopStep maxMessageSize stream = .dispatch t h p rest →
        stream.head? = some ProtocolVersion ∧ h.length ≤ maxHeaderBufferSize ∧
          p.length ≤ maxMessageSize)
    ∧ (∀ b0 b1 b2 b3 b4 b5 b6 b7 rest,
        (b0 ≠ ProtocolVersion ∨ b2 * 2 ^ 8 + b3 > maxHeaderBufferSize ∨
            b4 * 2 ^ 24 + b5 * 2 ^ 16 + b6 * 2 ^ 8 + b7 > maxMessageSize) →
          readLoopStep maxMessageSize
              (b0 :: b1 :: b2 :: b3 :: b4 :: b5 :: b6 :: b7 :: rest) = .exitClose) := by
  constructor
  · intro stream t h p rest hd
    match stream with
    | [] => simp [readLoopStep] at hd
    | [b0] => simp [readLoopStep] at hd
    | [b0, b1] => simp [readLoopStep] at hd
    | [b0, b1, b2] => simp [readLoopStep] at hd
    | [b0, b1, b2, b3] => simp [readLoopStep] at hd
    | [b0, b1, b2, b3, b4] => simp [readLoopStep] at hd
    | [b0, b1, b2, b3, b4, b5] => simp [readLoopStep] at hd
    | [b0, b1, b2, b3, b4, b5, b6] => simp [readLoopStep] at hd
    | b0 :: b1 :: b2 :: b3 :: b4 :: b5 :: b6 :: b7 :: rest' =>
      simp only [readLoopStep, bytesToUint16, bytesToUint32, List.length_cons,
        List.length_nil] at hd
      norm_num at hd
      split_ifs at hd with h0 h1 h2 h3 h4
      cases hd
      refine ⟨by simp [h0], ?_, ?_⟩
      · rw [List.length_take]
        exact le_trans (min_le_left _ _) (by omega)
      · rw [List.length_take]
        exact le_trans (min_le_left _ _) (by omega)
  · intro b0 b1 b2 b3 b4 b5 b6 b7 rest hbad
    simp only [readLoopStep, bytesToUint16, bytesToUint32, List.length_cons,
      List.length_nil]
    norm_num
    norm_num at hbad
    rcases hbad with h | h | h
    · simp [h]
    · intro _ h1'
      omega
    · intro _ _ h2'
      omega

/-- Witness for `read_loop_bounds`: a head whose version byte is 1 is
rejected — the read loop exits. -/
theorem read_loop_bounds_witness :
    readLoopStep 4096 [1, 3, 0, 0, 0, 0, 0, 0] = ReadStep.exitClose :=
  (read_loop_bounds 4096).2 1 3 0 0 0 0 0 0 [] (Or.inl (by decide))

/-- Claim C2 (amended). For every frame type byte `t`, header `h` of length at
most `10·1024`, and payload `p` of length at most the configured
`maxMessageSize` *and below `2^32`* (so the `uint32` payload-length field does
not wrap), the byte sequence emitted by the write path is parsed by the read
loop back into exactly `(t, h, p)`, consuming exactly `8 + |h| + |p|` bytes
and leaving `rest`. -/
theorem frame_roundtrip (maxMessageSize t : Nat) (h p rest : List Nat)
    (_ht : t < 256) (hh : h.length ≤ 10 * 1024) (hp : p.length ≤ maxMessageSize)
    (hp32 : p.length < 2 ^ 32) :
    readLoopStep maxMessageSize (encodeFrame t h p ++ rest) =
      .dispatch t h p rest :=
  readLoopStep_encodeFrame maxMessageSize t h p rest
    (by simpa [maxHeaderBufferSize] using hh) hp hp32

/-- Witness for `frame_roundtrip` at a small concrete frame. -/
theorem frame_roundtrip_witness :
    readLoopStep 4096 (encodeFrame 3 [9, 9] [7, 7, 7] ++ [1, 2]) =
      ReadStep.dispatch 3 [9, 9] [7, 7, 7] [1, 2] :=
  frame_roundtrip 4096 3 [9, 9] [7, 7, 7] [1, 2] (by decide) (by decide)
    (by decide) (by decide)

/-- Claim C2 counterexample. With `maxMessageSize` configured to `2^32` (a legal
`SetMaxMessageSize` argument on a 64-bit build), the frame type byte 3, the
empty header and a payload of `2^32` zero bytes satisfy every premise of the
claim as stated, yet the write path's `uint32(len(payload))` wraps to 0, so
the read loop parses the frame back with an *empty* payload instead of `p`:
the emitted bytes are not parsed back into `(t, h, p)`. -/
theorem frame_roundtrip_cex :
    (3 < 256 ∧ ([] : List Nat).length ≤ 10 * 1024 ∧
        (List.replicate (2 ^ 32) (0 : Nat)).length ≤ 2 ^ 32) ∧
      readLoopStep (2 ^ 32)
          (encodeFrame 3 [] (List.replicate (2 ^ 32) (0 : Nat)) ++ []) ≠
        ReadStep.dispatch 3 [] (List.replicate (2 ^ 32) (0 : Nat)) [] := by
  have hlen : (List.replicate (2 ^ 32) (0 : Nat)).length = 2 ^ 32 :=
    List.length_replicate _ _
  constructor
  · exact ⟨by norm_num, by norm_num, le_of_eq hlen⟩
  · generalize hq : List.replicate (2 ^ 32) (0 : Nat) = p at hlen ⊢
    have hmod : p.length % 2 ^ 32 = 0 := by rw [hlen, Nat.mod_self]
    simp only [encodeFrame, hmod, List.length_nil, Nat.zero_mod, uint16ToBytes,
      uint32ToBytes, List.append_nil, List.nil_append, List.cons_append]
    norm_num
    simp only [readLoopStep, bytesToUint16, bytesToUint32, List.length_cons,
      List.length_nil, maxHeaderBufferSize]
    norm_num
    intro h
    rw [h] at hlen
    norm_num at hlen

/-- Claim C4. An outbound send whose encoded payload exceeds the configured
maximum message size fails with `ErrMaxMsgSizeExceeded`, writes no bytes at
all to the connection, and does not close the socket (first conjunct,
`Socket.write`); through `Socket.Call` the same invocation returns
`ErrMaxMsgSizeExceeded` and leaves the registry cleaned up (second
conjunct). -/
theorem write_max_size :
    (∀ (α β : Type) (encodeH : α → Except String (List Nat))
        (encodeD : β → Except String (List Nat)) (maxMessageSize reqType : Nat)
        (headerI : Option α) (d : β) (p : List Nat)
        (conn : List (Nat × Option String)),
        encodeD d = .ok p → p.length > maxMessageSize →
          socketWrite encodeH encodeD maxMessageSize reqType headerI (some d)
              conn = ⟨some .maxMsgSizeExceeded, [], false⟩)
    ∧ ∀ (δ : Type) (env : CallEnv δ) (reg : List String) (id : String)
        (d : δ) (targ : Option TimeoutArg) (p : List Nat) (key : String)
        (reg1 : List String),
        chainNew reg env.gen env.fuel = some (key, reg1) →
        env.encodeData d = .ok p → p.length > env.maxMessageSize →
          socketCall env reg id ⟨some d, targ⟩ =
            some (key, none, some (.write .maxMsgSizeExceeded),
              chainDelete reg1 key) := by
  have hw : ∀ (α β : Type) (encodeH : α → Except String (List Nat))
      (encodeD : β → Except String (List Nat)) (maxMessageSize reqType : Nat)
      (headerI : Option α) (d : β) (p : List Nat)
      (conn : List (Nat × Option String)),
      encodeD d = .ok p → p.length > maxMessageSize →
        socketWrite encodeH encodeD maxMessageSize reqType headerI (some d)
            conn = ⟨some .maxMsgSizeExceeded, [], false⟩ := by
    intro α β encodeH encodeD maxMessageSize reqType headerI d p conn hD hp
    simp [socketWrite, hD, hp]
  refine ⟨hw, ?_⟩
  intro δ env reg id d targ p key reg1 hchain hD hp
  unfold socketCall
  rw [hchain]
  dsimp only
  rw [hw _ _ env.encodeHeaderCall env.encodeData env.maxMessageSize typeCall
    (some ⟨id, key⟩) d p env.conn hD hp]

/-- Witness for `write_max_size`: a 3-byte payload against a configured
maximum of 2 bytes. -/
theorem write_max_size_witness :
    socketCall (δ := Unit)
        ⟨fun _ => "K", 1, fun _ => .ok [], fun _ => .ok [7, 7, 7], 2, [],
          .closeFired⟩ [] "f" ⟨some (), none⟩ =
      some ("K", none, some (.write .maxMsgSizeExceeded),
        chainDelete ["K"] "K") :=
  write_max_size.2 Unit
    ⟨fun _ => "K", 1, fun _ => .ok [], fun _ => .ok [7, 7, 7], 2, [],
      .closeFired⟩ [] "f" () none [7, 7, 7] "K" ["K"] (by decide) rfl
    (by decide)

/-- Claim C1 (amended). Whenever `Socket.Call` returns, its error is one of:
nil (success), `ErrClosed`, `ErrTimeout`, the error of the timeout-argument
type assertion, an error propagated unchanged from the write path (payload
encode failure, `ErrMaxMsgSizeExceeded`, header encode failure,
header-too-large, the fatal short-write error, or a connection write error),
or a peer error carrying exactly the error text delivered in the peer's call
return. -/
theorem call_error_cases (δ : Type) (env : CallEnv δ) (reg : List String)
    (id : String) (args : CallArgs δ) (key : String) (ctx : Option Context)
    (err : Option CallErr) (reg' : List String)
    (h : socketCall env reg id args = some (key, ctx, err, reg')) :
    err = none ∨ err = some .closedErr ∨ err = some .timeoutErr ∨
      err = some .timeoutAssert ∨ (∃ w, err = some (.write w)) ∨
      ∃ msg r, err = some (.peer msg) ∧ env.outcome = .delivered r ∧
        r.err = some msg := by
  unfold socketCall at h
  split at h
  · exact absurd h (by simp)
  · dsimp only at h
    split at h
    · rw [Option.some_inj] at h
      obtain ⟨-, -, rfl, -⟩ := h
      exact .inr (.inr (.inr (.inr (.inl ⟨_, rfl⟩))))
    · split at h
      · rw [Option.some_inj] at h
        obtain ⟨-, -, rfl, -⟩ := h
        exact .inr (.inr (.inr (.inl rfl)))
      · split at h
        all_goals rw [Option.some_inj] at h
        · obtain ⟨-, -, rfl, -⟩ := h
          exact .inr (.inl rfl)
        · obtain ⟨-, -, rfl, -⟩ := h
          exact .inr (.inr (.inl rfl))
        · rename_i r heq
          obtain ⟨-, -, rfl, -⟩ := h
          match hr : r.err with
          | none => exact .inl rfl
          | some msg =>
            exact .inr (.inr (.inr (.inr (.inr ⟨msg, r, rfl, heq, hr⟩))))

/-- Claim C1 counterexample. A concrete `Call` invocation whose payload the
codec fails to encode (`fmt.Errorf("encode: %v", err)`) returns an error that
is none of nil, `ErrTimeout`, `ErrClosed`, `ErrMaxMsgSizeExceeded`, or a
peer-reported error — refuting the claim's exhaustive five-value list. -/
theorem call_error_set_cex :
    socketCall (δ := Unit)
        ⟨fun _ => "K", 1, fun _ => .ok [], fun _ => .error "boom", 4096, [],
          .closeFired⟩ [] "f" ⟨some (), none⟩ =
      some ("K", none, some (.write (.encodeData "boom")), []) ∧
      callErrInSpecSet (some (.write (.encodeData "boom"))) = false :=
  ⟨rfl, rfl⟩

/-- Witness for `call_error_cases`: a concrete `Call` racing against an
already-closed socket returns `ErrClosed`, which the classification
accepts. -/
theorem call_error_cases_witness :
    (some CallErr.closedErr : Option CallErr) = none ∨
      (some CallErr.closedErr : Option CallErr) = some .closedErr ∨
      (some CallErr.closedErr : Option CallErr) = some .timeoutErr ∨
      (some CallErr.closedErr : Option CallErr) = some .timeoutAssert ∨
      (∃ w, (some CallErr.closedErr : Option CallErr) = some (.write w)) ∨
      ∃ msg r, (some CallErr.closedErr : Option CallErr) = some (.peer msg) ∧
        (CallOutcome.closeFired : CallOutcome) = .delivered r ∧
        r.err = some msg :=
  call_error_cases Unit
    ⟨fun _ => "K", 1, fun _ => .ok [], fun _ => .ok [], 4096, [], .closeFired⟩
    [] "f" ⟨none, none⟩ "K" none (some .closedErr) [] rfl

/-- Claim C7. On every return path of `Socket.Call` — write/encode error,
failed timeout-argument assertion, close broadcast, per-call timeout, or
reply delivery — the deferred `funcChain.Delete(key)` has removed the minted
correlation key from the registry by the time `Call` returns (first
conjunct); and deleting a key that is already absent is a no-op (second
conjunct). -/
theorem call_registry_cleanup :
    (∀ (δ : Type) (env : CallEnv δ) (reg : List String) (id : String)
        (args : CallArgs δ) (key : String) (ctx : Option Context)
        (err : Option CallErr) (reg' : List String),
        socketCall env reg id args = some (key, ctx, err, reg') → key ∉ reg')
    ∧ ∀ (m : List String) (k : String), k ∉ m → chainDelete m k = m := by
  have hnot : ∀ (m : List String) (k : String), k ∉ chainDelete m k := by
    intro m k hk
    simp [chainDelete, List.mem_filter] at hk
  constructor
  · intro δ env reg id args key ctx err reg' h
    unfold socketCall at h
    split at h
    · exact absurd h (by simp)
    · dsimp only at h
      split at h
      · rw [Option.some_inj] at h
        obtain ⟨rfl, -, -, rfl⟩ := h
        exact hnot _ _
      · split at h
        · rw [Option.some_inj] at h
          obtain ⟨rfl, -, -, rfl⟩ := h
          exact hnot _ _
        · split at h
          all_goals rw [Option.some_inj] at h
          all_goals obtain ⟨rfl, -, -, rfl⟩ := h
          all_goals exact hnot _ _
  · intro m k hk
    simp only [chainDelete]
    rw [List.filter_eq_self]
    intro a ha
    simp only [ne_eq, decide_eq_true_eq]
    rintro rfl
    exact hk ha

/-- Witness for `call_registry_cleanup`: a concrete closed-socket `Call`
leaves its key `"K"` out of the final registry, and deleting `"K"` from a
registry not containing it changes nothing. -/
theorem call_registry_cleanup_witness :
    ("K" : String) ∉ ([] : List String) ∧ chainDelete ["A"] "K" = ["A"] :=
  ⟨call_registry_cleanup.1 Unit
      ⟨fun _ => "K", 1, fun _ => .ok [], fun _ => .ok [], 4096, [],
        .closeFired⟩ [] "f" ⟨none, none⟩ "K" none (some .closedErr) [] rfl,
    call_registry_cleanup.2 ["A"] "K" (by decide)⟩

/-- A key returned by the collision-retry loop is outside the current map and
is one of the generator's outputs. -/
theorem chainNewLoop_spec (m : List String) (gen : Nat → String) :
    ∀ fuel i k, chainNewLoop m gen i fuel = some k → k ∉ m ∧ ∃ j, k = gen j := by
  intro fuel
  induction fuel with
  | zero =>
    intro i k h
    simp [chainNewLoop] at h
  | succ fuel ih =>
    intro i k h
    rw [chainNewLoop] at h
    split at h
    · exact ih (i + 1) k h
    · rw [Option.some_inj] at h
      subst h
      exact ⟨by assumption, i, rfl⟩

/-- Helper: `randomString n` always returns a string of `n` characters. -/
theorem randomString_length (n : Nat) (randBytes : Nat → Nat) :
    (randomString n randBytes).length = n := by
  simp [randomString, String.length]

/-- Every character of a `randomString` result is drawn from the 62-character
alphanumeric alphabet. -/
theorem randomString_chars (n : Nat) (randBytes : Nat → Nat) :
    ∀ c ∈ (randomString n randBytes).data, c ∈ alphanum := by
  intro c hc
  simp only [randomString, List.mem_map, List.mem_range] at hc
  obtain ⟨i, -, rfl⟩ := hc
  have hlt : randBytes i % 256 % alphanum.length < alphanum.length :=
    Nat.mod_lt _ (by decide)
  rw [List.getD_eq_getElem _ _ hlt]
  exact List.getElem_mem hlt

/-- Claim C8. Every correlation key minted by `chain.New` (driven by
`randomString` over the entropy stream `bytes i` of its `i`-th attempt) is a
string of exactly `chainIDLength = 10` characters drawn from the 62-character
alphanumeric alphabet; at the moment of insertion it is not already a key of
the registry map (collisions having been retried away), and the updated map
is exactly the old map plus the fresh key. -/
theorem chain_new_key_spec (m : List String) (bytes : Nat → Nat → Nat)
    (fuel : Nat) (k : String) (m' : List String)
    (h : chainNew m (fun i => randomString chainIDLength (bytes i)) fuel =
      some (k, m')) :
    k.length = chainIDLength ∧ (∀ c ∈ k.data, c ∈ alphanum) ∧ k ∉ m ∧
      m' = k :: m := by
  unfold chainNew at h
  cases hl : chainNewLoop m (fun i => randomString chainIDLength (bytes i)) 0 fuel with
  | none => rw [hl] at h; simp at h
  | some id =>
    rw [hl, Option.map_some'] at h
    injection h with hp
    injection hp with h1 h2
    subst h1
    subst h2
    obtain ⟨hmem, j, rfl⟩ := chainNewLoop_spec m _ fuel 0 id hl
    exact ⟨randomString_length _ _, randomString_chars _ _, hmem, rfl⟩

/-- Witness for `chain_new_key_spec`: the all-zero entropy stream yields the
key `"0000000000"`, fresh for the empty registry. -/
theorem chain_new_key_spec_witness :
    ("0000000000" : String).length = chainIDLength ∧
      (∀ c ∈ ("0000000000" : String).data, c ∈ alphanum) ∧
      ("0000000000" : String) ∉ ([] : List String) ∧
      (["0000000000"] : List String) = ["0000000000"] :=
  chain_new_key_spec [] (fun _ _ => 0) 1 "0000000000" ["0000000000"] (by decide)

/-- Claim C6. Invoking `Socket.Close` `N ≥ 1` times from the initial state
publishes the close broadcast exactly once, releases the underlying
connection exactly once, and runs each of the registered `OnClose` hooks
exactly once (the mutex-guarded `IsClosed` check makes every invocation after
the first a no-op, so any concurrent interleaving is equivalent to this
sequence). -/
theorem close_idempotent (numHooks : Nat) :
    ∀ N, 1 ≤ N →
      socketClose^[N] (initCloseState numHooks) =
        ⟨true, 1, 1, List.replicate numHooks 1⟩ := by
  have h1 : socketClose (initCloseState numHooks) =
      ⟨true, 1, 1, List.replicate numHooks 1⟩ := by
    simp [socketClose, initCloseState, List.map_replicate]
  have hfix : socketClose ⟨true, 1, 1, List.replicate numHooks 1⟩ =
      ⟨true, 1, 1, List.replicate numHooks 1⟩ := by
    simp [socketClose]
  have hiter : ∀ n,
      socketClose^[n] (⟨true, 1, 1, List.replicate numHooks 1⟩ : CloseState) =
        ⟨true, 1, 1, List.replicate numHooks 1⟩ := by
    intro n
    induction n with
    | zero => rfl
    | succ n ih => rw [Function.iterate_succ_apply, hfix, ih]
  intro N hN
  obtain ⟨n, rfl⟩ : ∃ n, N = n + 1 := ⟨N - 1, by omega⟩
  rw [Function.iterate_succ_apply, h1, hiter]

/-- Witness for `close_idempotent`: three closes of a socket with two
registered hooks. -/
theorem close_idempotent_witness :
    socketClose^[3] (initCloseState 2) = ⟨true, 1, 1, List.replicate 2 1⟩ :=
  close_idempotent 2 3 (by decide)

/-- Claim C9. `Context.Decode` returns `ErrNoContextData` exactly when the raw
payload is empty (first conjunct); on a non-empty payload it returns success
exactly when the codec's decode succeeds (second conjunct), and a codec
failure surfaces as the wrapped decode error — never as `ErrNoContextData`
(third conjunct). -/
theorem context_decode_spec (codec : List Nat → Option String) (data : List Nat) :
    (contextDecode codec ⟨data⟩ = some .noContextData ↔ data = [])
    ∧ (data ≠ [] → (contextDecode codec ⟨data⟩ = none ↔ codec data = none))
    ∧ ∀ msg, data ≠ [] → codec data = some msg →
        contextDecode codec ⟨data⟩ = some (.decodeFailed msg) := by
  refine ⟨?_, ?_, ?_⟩
  · rcases hd : data with - | ⟨b, bs⟩
    · simp [contextDecode]
    · simp only [contextDecode]
      rw [if_neg (by simp)]
      cases hc : codec (b :: bs) <;> simp
  · intro hne
    simp only [contextDecode]
    rw [if_neg (by simpa [List.length_eq_zero] using hne)]
    cases hc : codec data <;> simp
  · intro msg hne hc
    simp only [contextDecode]
    rw [if_neg (by simpa [List.length_eq_zero] using hne), hc]

/-- Witness for `context_decode_spec`: a failing codec on a one-byte payload
yields the wrapped decode error. -/
theorem context_decode_spec_witness :
    contextDecode (fun _ => some "bad") ⟨[1]⟩ = some (.decodeFailed "bad") :=
  (context_decode_spec (fun _ => some "bad") [1]).2.2 "bad" (by decide) rfl

/-- Against the default connection script (every write accepted in full), the
write sequence writes every buffer, in order, without error. -/
theorem writeSeq_nil (bufs : List (List Nat)) :
    writeSeq [] bufs = ((bufs.map List.length).sum, bufs.flatten, none) := by
  induction bufs with
  | nil => rfl
  | cons buf bufs ih => simp [writeSeq, connWrite, ih, List.take_length]

/-- The write sequence of one frame against the default connection: all five
segments go out, totalling `8 + |header| + |payload|` bytes that form exactly
the assembled frame. -/
theorem writeSeq_frame (reqType : Nat) (hb pb : List Nat) :
    writeSeq [] ([[ProtocolVersion, reqType], uint16ToBytes (hb.length % 2 ^ 16),
        uint32ToBytes (pb.length % 2 ^ 32)] ++ (if hb.length > 0 then [hb] else []) ++
        (if pb.length > 0 then [pb] else [])) =
      (8 + hb.length + pb.length, encodeFrame reqType hb pb, none) := by
  rcases Nat.eq_zero_or_pos hb.length with hb0 | hb0 <;>
    rcases Nat.eq_zero_or_pos pb.length with pb0 | pb0
  · obtain rfl := List.eq_nil_of_length_eq_zero hb0
    obtain rfl := List.eq_nil_of_length_eq_zero pb0
    simp [writeSeq_nil, encodeFrame, uint16ToBytes, uint32ToBytes]
  · obtain rfl := List.eq_nil_of_length_eq_zero hb0
    simp [writeSeq_nil, encodeFrame, uint16ToBytes, uint32ToBytes, pb0]
    omega
  · obtain rfl := List.eq_nil_of_length_eq_zero pb0
    simp [writeSeq_nil, encodeFrame, uint16ToBytes, uint32ToBytes, hb0]
    omega
  · simp [writeSeq_nil, encodeFrame, uint16ToBytes, uint32ToBytes, hb0, pb0]
    omega

/-- A `Socket.write` whose codec succeeds, whose buffers respect both bounds,
and whose connection accepts everything puts exactly the assembled frame on
the wire and returns no error. -/
theorem socketWrite_ok {α β : Type} (encodeH : α → Except String (List Nat))
    (encodeD : β → Except String (List Nat)) (maxMessageSize reqType : Nat)
    (hI : α) (dI : β) (hb pb : List Nat)
    (hEH : encodeH hI = .ok hb) (hED : encodeD dI = .ok pb)
    (hhb : hb.length ≤ maxHeaderBufferSize) (hpb : pb.length ≤ maxMessageSize) :
    socketWrite encodeH encodeD maxMessageSize reqType (some hI) (some dI) [] =
      ⟨none, encodeFrame reqType hb pb, false⟩ := by
  simp only [socketWrite, Option.map_some', hED, hEH]
  rw [if_neg (by omega), if_neg (by omega)]
  rw [writeSeq_frame]
  simp only [List.length_cons, List.length_nil, uint16ToBytes, uint32ToBytes]
  rw [if_neg (by omega)]

/-- Claim C10. A frame whose type byte is none of the five defined types is
non-fatal: `handleReceivedMessage` returns the `invalid request type` error —
which the dispatch goroutine only logs — and does not close the socket (first
conjunct); the read loop itself dispatches a well-framed message regardless
of its type byte and continues with the rest of the stream (second
conjunct); by contrast, an invalid version byte makes the read loop exit,
closing the socket via its deferred `s.Close()` (third conjunct). -/
theorem invalid_type_nonfatal (δ : Type) (env : MsgEnv δ) (maxMessageSize : Nat) :
    (∀ t h p, t ≠ typeClose → t ≠ typePing → t ≠ typePong → t ≠ typeCall →
        t ≠ typeCallReturn →
          (handleReceivedMessage env t h p).err = some (.invalidType t) ∧
            (handleReceivedMessage env t h p).closeCalled = false)
    ∧ (∀ t h p rest, t < 256 → h.length ≤ maxHeaderBufferSize →
        p.length ≤ maxMessageSize → p.length < 2 ^ 32 →
          readLoopStep maxMessageSize (encodeFrame t h p ++ rest) =
            .dispatch t h p rest)
    ∧ ∀ b0 b1 b2 b3 b4 b5 b6 b7 rest, b0 ≠ ProtocolVersion →
        readLoopStep maxMessageSize
            (b0 :: b1 :: b2 :: b3 :: b4 :: b5 :: b6 :: b7 :: rest) =
          .exitClose := by
  refine ⟨?_, ?_, ?_⟩
  · intro t h p h0 h1 h2 h3 h4
    rw [handleReceivedMessage, if_neg h0, if_neg h1, if_neg h2, if_neg h3,
      if_neg h4]
    exact ⟨rfl, rfl⟩
  · intro t h p rest _ hh hp hp32
    exact readLoopStep_encodeFrame maxMessageSize t h p rest hh hp hp32
  · intro b0 b1 b2 b3 b4 b5 b6 b7 rest hb0
    rw [readLoopStep, if_pos hb0]

/-- Witness for `invalid_type_nonfatal`: the undefined type byte 9 produces
the logged-only error and leaves the socket open. -/
theorem invalid_type_nonfatal_witness :
    (handleReceivedMessage cexEmptyErrTextEnv 9 [] []).err =
        some (.invalidType 9) ∧
      (handleReceivedMessage cexEmptyErrTextEnv 9 [] []).closeCalled = false :=
  (invalid_type_nonfatal Unit cexEmptyErrTextEnv 4096).1 9 [] [] (by decide)
    (by decide) (by decide) (by decide) (by decide)

/-- Helper: `Socket.Call` whose write succeeded, whose timeout argument passed the
type assertion, and whose `select` received a delivery returns the delivered
context together with the delivered error, the registry entry removed. -/
theorem socketCall_delivered (δ : Type) (env : CallEnv δ) (reg : List String)
    (id : String) (args : CallArgs δ) (key : String) (reg1 : List String)
    (r : RetChainData)
    (hchain : chainNew reg env.gen env.fuel = some (key, reg1))
    (hw : (socketWrite env.encodeHeaderCall env.encodeData env.maxMessageSize
        typeCall (some ⟨id, key⟩) args.data env.conn).err = none)
    (htarg : args.timeoutArg = none)
    (hout : env.outcome = .delivered r) :
    socketCall env reg id args =
      some (key, some r.ctx, r.err.map .peer, chainDelete reg1 key) := by
  unfold socketCall
  rw [hchain]
  dsimp only
  rw [hw, htarg, hout]

/-- Claim C5 (amended). For an inbound call whose registered handler returns a
reply value `d` together with a non-nil error whose text `e` is *non-empty*:
the engine sends exactly one call-return frame, whose header echoes the
request's `ReturnKey` and carries `ReturnErr = e`, and which still carries
the encoded reply payload; the remote read loop recovers that frame; the
remote call-return dispatch delivers the payload context together with the
error text `e`; and the remote caller's `Call` returns that context together
with an error carrying exactly the text `e`. (The non-emptiness of `e` is
required: an empty error text is indistinguishable on the wire from success.) -/
theorem peer_error_reply (δ : Type) (env : MsgEnv δ) (remoteMax : Nat)
    (headerBuf payloadBuf hb pb rest : List Nat) (fid k e : String)
    (f : Context → Option δ × Option String) (d : δ)
    (callEnv : CallEnv δ) (regC : List String) (key cid : String)
    (reg1 : List String) (args : CallArgs δ)
    (hdec : env.decodeHeaderCall headerBuf = .ok ⟨fid, k⟩)
    (hlook : env.funcMap.lookup fid = some f)
    (hf : f ⟨payloadBuf⟩ = (some d, some e))
    (he : e ≠ "")
    (hencH : env.encodeHeaderCallReturn ⟨k, e⟩ = .ok hb)
    (hencD : env.encodeData d = .ok pb)
    (hhb : hb.length ≤ maxHeaderBufferSize)
    (hpb : pb.length ≤ env.maxMessageSize)
    (hconn : env.conn = [])
    (hpbM : pb.length ≤ remoteMax) (hpb32 : pb.length < 2 ^ 32)
    (hdecR : env.decodeHeaderCallReturn hb = .ok ⟨k, e⟩)
    (hreg : chainGet env.registry k = true)
    (hready : env.waiterReady = true)
    (hchain : chainNew regC callEnv.gen callEnv.fuel = some (key, reg1))
    (hwC : (socketWrite callEnv.encodeHeaderCall callEnv.encodeData
        callEnv.maxMessageSize typeCall (some ⟨cid, key⟩) args.data
        callEnv.conn).err = none)
    (htarg : args.timeoutArg = none)
    (hout : callEnv.outcome = .delivered ⟨⟨pb⟩, some e⟩) :
    (handleCallRequest env headerBuf payloadBuf).err = none ∧
      (handleCallRequest env headerBuf payloadBuf).writes =
        [(typeCallReturn, some ⟨k, e⟩, some d)] ∧
      (handleCallRequest env headerBuf payloadBuf).sent =
        encodeFrame typeCallReturn hb pb ∧
      readLoopStep remoteMax (encodeFrame typeCallReturn hb pb ++ rest) =
        .dispatch typeCallReturn hb pb rest ∧
      handleCallReturnRequest env hb pb = (none, some ⟨⟨pb⟩, some e⟩) ∧
      socketCall callEnv regC cid args =
        some (key, some ⟨pb⟩, some (.peer e), chainDelete reg1 key) := by
  have hout1 : handleCallRequest env headerBuf payloadBuf =
      ⟨none, [(typeCallReturn, some ⟨k, e⟩, some d)],
        encodeFrame typeCallReturn hb pb, false, env.callHookSet,
        true && env.errorHookSet⟩ := by
    rw [handleCallRequest, hdec]
    dsimp only
    rw [hlook]
    dsimp only
    rw [hf]
    dsimp only
    rw [hconn, socketWrite_ok env.encodeHeaderCallReturn env.encodeData
      env.maxMessageSize typeCallReturn (⟨k, e⟩ : HeaderCallReturn) d hb pb
      hencH hencD hhb hpb]
    rfl
  have hel : e.length > 0 := by
    rcases e with ⟨l⟩
    cases l with
    | nil => exact absurd rfl he
    | cons c cs => simp [String.length]
  refine ⟨by rw [hout1], by rw [hout1], by rw [hout1], ?_, ?_, ?_⟩
  · exact readLoopStep_encodeFrame remoteMax typeCallReturn hb pb rest hhb hpbM hpb32
  · simp [handleCallReturnRequest, hdecR, hreg, hready, hel]
  · exact socketCall_delivered δ callEnv regC cid args key reg1 ⟨⟨pb⟩, some e⟩
      hchain hwC htarg hout

/-- Claim C5 counterexample. A registered handler returning a *non-nil* Go
error whose `Error()` text is empty (`errors.New("")`) together with reply
`()`: the engine does send the one call-return frame with `ReturnKey`
echoed and `ReturnErr = ""` — but on the remote side the empty `ReturnErr`
is decoded as success (`len(header.ReturnErr) > 0` fails), so the waiting
`Call` returns a nil error rather than "an error carrying exactly that
text", refuting the claim as stated. -/
theorem peer_error_reply_cex :
    cexEmptyErrTextEnv.funcMap.lookup "f" = some (fun _ => (some (), some "")) ∧
      (handleCallRequest cexEmptyErrTextEnv [0] [7]).writes =
        [(typeCallReturn, some ⟨"K", ""⟩, some ())] ∧
      handleCallReturnRequest cexEmptyErrTextEnv [1] [42] =
        (none, some ⟨⟨[42]⟩, none⟩) ∧
      socketCall cexEmptyErrTextCallEnv [] "g" ⟨none, none⟩ =
        some ("Q", some ⟨[42]⟩, none, []) ∧
      (none : Option CallErr) ≠ some (.peer "") :=
  ⟨rfl, rfl, rfl, rfl, by decide⟩

/-- Witness for `peer_error_reply`: a concrete run with error text
`"ERROR"`. -/
theorem peer_error_reply_witness :
    (handleCallRequest wPeerEnv [0] [7]).err = none ∧
      (handleCallRequest wPeerEnv [0] [7]).writes =
        [(typeCallReturn, some ⟨"K", "ERROR"⟩, some ())] ∧
      (handleCallRequest wPeerEnv [0] [7]).sent =
        encodeFrame typeCallReturn [1] [42] ∧
      readLoopStep 4096 (encodeFrame typeCallReturn [1] [42] ++ []) =
        .dispatch typeCallReturn [1] [42] [] ∧
      handleCallReturnRequest wPeerEnv [1] [42] =
        (none, some ⟨⟨[42]⟩, some "ERROR"⟩) ∧
      socketCall wPeerCallEnv [] "g" ⟨none, none⟩ =
        some ("Q", some ⟨[42]⟩, some (.peer "ERROR"), chainDelete ["Q"] "Q") :=
  peer_error_reply Unit wPeerEnv 4096 [0] [7] [1] [42] [] "f" "K" "ERROR"
    (fun _ => (some (), some "ERROR")) () wPeerCallEnv [] "Q" "g" ["Q"]
    ⟨none, none⟩ rfl rfl rfl (by decide) rfl rfl (by decide) (by decide) rfl
    (by decide) (by decide) rfl (by decide) rfl (by decide) rfl rfl rfl

end Pakt
